import Mathlib

/-!
Verification of the cost-manager front-end storage and currency layers.

The development embeds, as pure Lean functions with explicit state passing:

* the vanilla IndexedDB library exposed as `window.idb`
  (`idb_openCostsDB`, `idb_addCost`, `idb_getReport`);
* the ES-module IndexedDB library (`openCostsDB`, `addCost`, `getReport`);
* the currency service (`fetchExchangeRates`, `convertAmount`,
  `convertCurrency`).

JavaScript numbers are modelled as rationals.  A `NaN` produced by a missed
exchange-rate lookup is modelled as `none : Option ℚ`; JavaScript's
`x || d` idiom (which replaces the falsy values `0`, `NaN`, `undefined` and
the empty string with the default) is modelled per type.  Host outcomes —
whether an IndexedDB request fails, and what the HTTP fetch of the rates
returns — are passed in explicitly as data.
-/

namespace CostManager

/-- A table of exchange rates, keyed by currency name, as held in the
module-level `exchangeRates` variable of the currency service. -/
abbrev Rates := List (String × ℚ)

/-- The initial value of the module-level `exchangeRates` variable:
`{ USD: 1, GBP: 0.8, EURO: 0.85, ILS: 3.5 }`. -/
def defaultRates : Rates :=
  [("USD", 1), ("GBP", 4/5), ("EURO", 17/20), ("ILS", 7/2)]

/-- JavaScript `x || d` on a number that may be absent (`undefined`) or be
`0`: both are falsy and give the default. -/
def jsOr (x : Option ℚ) (d : ℚ) : ℚ :=
  match x with
  | none => d
  | some q => if q = 0 then d else q

/-- JavaScript addition where either operand may be `NaN` (modelled `none`):
any `NaN` operand poisons the result. -/
def addN (a b : Option ℚ) : Option ℚ :=
  match a, b with
  | some x, some y => some (x + y)
  | _, _ => none

/-- The `reduce((sum, cost) => sum + cost.sum, 0)` pattern over a list of
possibly-`NaN` sums. -/
def sumN (l : List (Option ℚ)) : Option ℚ :=
  l.foldl addN (some 0)

/-- The body of a successful rates response: the `data.rates` object, each
supported key possibly absent. -/
structure RatesPayload where
  USD : Option ℚ
  GBP : Option ℚ
  EUR : Option ℚ
  ILS : Option ℚ
  deriving Repr, DecidableEq

/-- Outcome of the single `fetch(exchangeUrl)` call: a network error,
non-ok response or JSON error is `failure`; otherwise the parsed body,
whose `rates` member may be missing (reading keys of `undefined` then
throws, which the `catch` turns into the same fallback as `failure`). -/
inductive FetchOutcome where
  | failure
  | success (rates : Option RatesPayload)
  deriving Repr, DecidableEq

/-- Module-level mutable state of the currency service: the configured URL
and the in-memory `exchangeRates` table. -/
structure CurrencyState where
  exchangeUrl : String
  exchangeRates : Rates
  deriving Repr, DecidableEq

/-- The state the currency service module starts in. -/
def initialCurrencyState : CurrencyState :=
  { exchangeUrl := "https://api.exchangerate-api.com/v4/latest/USD",
    exchangeRates := defaultRates }

/-- Extraction of the supported currencies from a `data.rates` object with
the source's `|| default` fallbacks. -/
def extractRates (p : RatesPayload) : Rates :=
  [("USD", jsOr p.USD 1), ("GBP", jsOr p.GBP (4/5)),
   ("EURO", jsOr p.EUR (17/20)), ("ILS", jsOr p.ILS (7/2))]

/-- `fetchExchangeRates`: issues one request to the configured URL; on a
parsed response stores the extracted rates in the module state and returns
them; on any error returns the previously stored rates unchanged.  The
result is `(returned rates, new module state, requests issued)`. -/
def fetchExchangeRates (outcome : FetchOutcome) (st : CurrencyState) :
    Rates × CurrencyState × List String :=
  match outcome with
  | .success (some p) =>
      let rates := extractRates p
      (rates, { st with exchangeRates := rates }, [st.exchangeUrl])
  | _ => (st.exchangeRates, st, [st.exchangeUrl])

/-- `convertAmount(amount, fromCurrency, toCurrency)`: identity when the
currencies coincide, otherwise via USD using the rate table; a missed
lookup yields `NaN` (`none`). -/
def convertAmount (rates : Rates) (amount : ℚ)
    (fromCurrency toCurrency : String) : Option ℚ :=
  if fromCurrency = toCurrency then some amount
  else
    match rates.lookup fromCurrency, rates.lookup toCurrency with
    | some rf, some rt => some (amount / rf * rt)
    | _, _ => none

/-- One cost entry of a report: the shape
`{ sum, currency, category, description, Date: { day } }`. -/
structure ReportCost where
  sum : Option ℚ
  currency : String
  category : String
  description : String
  day : Int
  deriving Repr, DecidableEq

/-- The `total` member of a report. -/
structure TotalInfo where
  currency : String
  total : Option ℚ
  deriving Repr, DecidableEq

/-- A monthly report as produced by `getReport`. -/
structure Report where
  year : Int
  month : Int
  costs : List ReportCost
  total : TotalInfo
  deriving Repr, DecidableEq

/-- `convertCurrency(report, targetCurrency)`: refresh the rates, convert
every cost sum (`cost.sum || 0`, where a `NaN` sum is falsy) into the
target currency, relabel each cost and the total with the target currency
and recompute the total.  Returns the converted report and the new module
state. -/
def convertCurrency (outcome : FetchOutcome) (st : CurrencyState)
    (report : Report) (targetCurrency : String) : Report × CurrencyState :=
  let fetched := fetchExchangeRates outcome st
  let rates := fetched.1
  let convertedCosts := report.costs.map (fun cost =>
    { cost with
      sum := convertAmount rates (jsOr cost.sum 0) cost.currency targetCurrency,
      currency := targetCurrency })
  let convertedTotal := sumN (convertedCosts.map (fun c => c.sum))
  ({ report with
     costs := convertedCosts,
     total := { currency := targetCurrency, total := convertedTotal } },
   fetched.2.1)

/-- A record as stored in the `costs` object store. -/
structure CostRecord where
  id : Nat
  sum : ℚ
  currency : String
  category : String
  description : String
  year : Int
  month : Int
  day : Int
  dateAdded : String
  deriving Repr, DecidableEq

/-- Schema of one secondary index of an object store. -/
structure IndexSchema where
  name : String
  keyPath : List String
  unique : Bool
  deriving Repr, DecidableEq

/-- Schema of an object store. -/
structure StoreSchema where
  name : String
  keyPath : String
  autoIncrement : Bool
  indexes : List IndexSchema
  deriving Repr, DecidableEq

/-- The state of the `costsdb` IndexedDB database: its version, the schemas
of its object stores, the auto-increment counter and the stored records in
primary-key order. -/
structure Database where
  version : Nat
  objectStores : List StoreSchema
  nextId : Nat
  costs : List CostRecord
  deriving Repr, DecidableEq

/-- A freshly created database, before any upgrade has run.  IndexedDB
auto-increment keys start at 1. -/
def emptyDatabase : Database :=
  { version := 0, objectStores := [], nextId := 1, costs := [] }

/-- The schema the upgrade handler gives the `costs` store: keyed by an
auto-incremented `id`, with the four secondary indexes the source creates. -/
def costsStoreSchema : StoreSchema :=
  { name := "costs", keyPath := "id", autoIncrement := true,
    indexes :=
      [{ name := "year", keyPath := ["year"], unique := false },
       { name := "month", keyPath := ["month"], unique := false },
       { name := "yearMonth", keyPath := ["year", "month"], unique := false },
       { name := "category", keyPath := ["category"], unique := false }] }

/-- The `onupgradeneeded` handler shared verbatim by both libraries: create
the `costs` store with its indexes unless `objectStoreNames` already
contains it. -/
def upgradeNeeded (db : Database) : Database :=
  if db.objectStores.any (fun s => s.name == "costs") then db
  else { db with objectStores := db.objectStores ++ [costsStoreSchema] }

/-- Host outcomes of the IndexedDB requests an operation may issue: whether
`indexedDB.open` errors, whether `store.add` errors, and whether
`index.getAll` errors. -/
structure HostEnv where
  openFails : Bool
  addFails : Bool
  getAllFails : Bool
  deriving Repr, DecidableEq

/-- `openCostsDB(databaseName, databaseVersion)` of the ES-module library:
reject with `Failed to open database` on an open error; run the upgrade
handler when the requested version is newer than the stored one. -/
def openCostsDB (env : HostEnv) (databaseName : String)
    (databaseVersion : Nat) (db : Database) : Except String Database :=
  if env.openFails then .error "Failed to open database"
  else if db.version < databaseVersion then
    .ok (upgradeNeeded { db with version := databaseVersion })
  else .ok db

/-- `idb.openCostsDB` of the vanilla library: the same open/upgrade logic.
(Its `onsuccess` additionally tries to attach `addCost`/`getReport`
convenience methods to the returned `IDBDatabase` object, which does not
affect the stored state.) -/
def idb_openCostsDB (env : HostEnv) (databaseName : String)
    (databaseVersion : Nat) (db : Database) : Except String Database :=
  if env.openFails then .error "Failed to open database"
  else if db.version < databaseVersion then
    .ok (upgradeNeeded { db with version := databaseVersion })
  else .ok db

/-- The caller-supplied cost: `{ sum, currency, category, description }`. -/
structure CostInput where
  sum : ℚ
  currency : String
  category : String
  description : String
  deriving Repr, DecidableEq

/-- The current date as `addCost` reads it from `new Date()`:
`getFullYear()`, `getMonth() + 1`, `getDate()` and `toISOString()`. -/
structure DateNow where
  year : Int
  month : Int
  day : Int
  iso : String
  deriving Repr, DecidableEq

/-- The simplified object `addCost` resolves with:
`{ sum, currency, category, description, Date: { day } }`. -/
structure AddedCost where
  sum : ℚ
  currency : String
  category : String
  description : String
  day : Int
  deriving Repr, DecidableEq

/-- Truthiness check of `!cost.sum || !cost.currency || !cost.category ||
!cost.description`: a zero sum or an empty string is falsy. -/
def missingRequired (cost : CostInput) : Bool :=
  cost.sum == 0 || cost.currency == "" || cost.category == "" ||
    cost.description == ""

/-- The record `addCost` stores: the input coerced, the category
upper-cased, stamped with the current date and the next auto-increment
key. -/
def mkCostItem (now : DateNow) (cost : CostInput) (id : Nat) : CostRecord :=
  { id := id, sum := cost.sum, currency := cost.currency,
    category := cost.category.toUpper, description := cost.description,
    year := now.year, month := now.month, day := now.day,
    dateAdded := now.iso }

/-- `addCost(cost)` of the ES-module library: reject without touching the
store when a required property is falsy; open `costsdb` (rejecting with
its error); append the stamped record in a readwrite transaction, or
reject with `Failed to add cost item` (an errored add aborts the
transaction, so nothing is stored); resolve with the simplified object. -/
def addCost (env : HostEnv) (now : DateNow) (cost : CostInput)
    (db : Database) : Except String AddedCost × Database :=
  if missingRequired cost then
    (.error "Missing required cost properties", db)
  else
    match openCostsDB env "costsdb" 1 db with
    | .error e => (.error e, db)
    | .ok db1 =>
        let costItem := mkCostItem now cost db1.nextId
        if env.addFails then (.error "Failed to add cost item", db1)
        else
          (.ok { sum := costItem.sum, currency := costItem.currency,
                 category := costItem.category,
                 description := costItem.description, day := costItem.day },
           { db1 with nextId := db1.nextId + 1,
                      costs := db1.costs ++ [costItem] })

/-- `idb.addCost(cost)` of the vanilla library: identical logic. -/
def idb_addCost (env : HostEnv) (now : DateNow) (cost : CostInput)
    (db : Database) : Except String AddedCost × Database :=
  if missingRequired cost then
    (.error "Missing required cost properties", db)
  else
    match idb_openCostsDB env "costsdb" 1 db with
    | .error e => (.error e, db)
    | .ok db1 =>
        let costItem := mkCostItem now cost db1.nextId
        if env.addFails then (.error "Failed to add cost item", db1)
        else
          (.ok { sum := costItem.sum, currency := costItem.currency,
                 category := costItem.category,
                 description := costItem.description, day := costItem.day },
           { db1 with nextId := db1.nextId + 1,
                      costs := db1.costs ++ [costItem] })

/-- `index('yearMonth').getAll([year, month])`: the records whose composite
key equals `[year, month]`, in primary-key order. -/
def matchingCosts (year month : Int) (l : List CostRecord) : List CostRecord :=
  l.filter (fun r => r.year == year && r.month == month)

/-- `idb.getReport(year, month, currency)` of the vanilla library: open the
database, read the matching records through the `yearMonth` index, keep
each record's sum, relabel each entry with the requested currency, and
total the sums.  Rejects with the open error or `Failed to get report`. -/
def idb_getReport (env : HostEnv) (year month : Int) (currency : String)
    (db : Database) : Except String Report × Database :=
  match idb_openCostsDB env "costsdb" 1 db with
  | .error e => (.error e, db)
  | .ok db1 =>
      if env.getAllFails then (.error "Failed to get report", db1)
      else
        let costs := matchingCosts year month db1.costs
        let convertedCosts : List ReportCost := costs.map (fun cost =>
          { sum := some cost.sum, currency := currency,
            category := cost.category, description := cost.description,
            day := cost.day })
        let total := sumN (convertedCosts.map (fun c => c.sum))
        (.ok { year := year, month := month, costs := convertedCosts,
               total := { currency := currency, total := total } }, db1)

/-- `getReport(year, month, currency)` of the ES-module library: open the
database, read the matching records through the `yearMonth` index, prepare
each entry (`Number(cost.sum) || 0`, keeping the stored currency), total
the sums, then pass the report through `convertCurrency` into the
requested currency.  Returns the result together with the database and
currency-service states. -/
def getReport (env : HostEnv) (outcome : FetchOutcome) (year month : Int)
    (currency : String) (db : Database) (st : CurrencyState) :
    Except String Report × Database × CurrencyState :=
  match openCostsDB env "costsdb" 1 db with
  | .error e => (.error e, db, st)
  | .ok db1 =>
      if env.getAllFails then (.error "Failed to get report", db1, st)
      else
        let costs := matchingCosts year month db1.costs
        let preparedCosts : List ReportCost := costs.map (fun cost =>
          { sum := some (jsOr (some cost.sum) 0), currency := cost.currency,
            category := cost.category, description := cost.description,
            day := cost.day })
        let total := sumN (preparedCosts.map (fun c => c.sum))
        let report : Report :=
          { year := year, month := month, costs := preparedCosts,
            total := { currency := currency, total := total } }
        let converted := convertCurrency outcome st report currency
        (.ok converted.1, db1, converted.2)

/-- The four messages the storage layer can reject with. -/
def errMsgs : List String :=
  ["Failed to open database", "Missing required cost properties",
   "Failed to add cost item", "Failed to get report"]

/-- The report entry `getReport` derives from a stored record once the
rates are fixed: the stored sum converted into the target currency, the
entry relabelled with the target currency. -/
def convertedCostOf (rates : Rates) (currency : String)
    (rec : CostRecord) : ReportCost :=
  { sum := convertAmount rates rec.sum rec.currency currency,
    currency := currency, category := rec.category,
    description := rec.description, day := rec.day }

/-- Whether a promise-like result resolved. -/
def isOkB {α : Type} (r : Except String α) : Bool :=
  match r with
  | .ok _ => true
  | .error _ => false

/-- The report entry the vanilla library derives from a stored record:
the stored sum kept as is, the entry relabelled with the requested
currency. -/
def vanProjOf (currency : String) (rec : CostRecord) : ReportCost :=
  { sum := some rec.sum, currency := currency, category := rec.category,
    description := rec.description, day := rec.day }

/-- A host environment in which every IndexedDB request succeeds. -/
def envOk : HostEnv := { openFails := false, addFails := false, getAllFails := false }

/-- A sample stored record: 1 USD of food on 2025-03-04. -/
def recEx : CostRecord :=
  { id := 1, sum := 1, currency := "USD", category := "FOOD",
    description := "lunch", year := 2025, month := 3, day := 4,
    dateAdded := "2025-03-04T00:00:00.000Z" }

/-- A sample database already upgraded and holding `recEx`. -/
def dbEx : Database :=
  { version := 1, objectStores := [costsStoreSchema], nextId := 2,
    costs := [recEx] }

/-- An upgraded database with no records. -/
def dbWithStore : Database :=
  { version := 1, objectStores := [costsStoreSchema], nextId := 1,
    costs := [] }

/-- A sample parsed rates response that differs from the built-in default
rates. -/
def fetchedPayload : RatesPayload :=
  { USD := some 1, GBP := some (1/2), EUR := some (9/10), ILS := some 4 }

/-- The currency-service state after one successful fetch of
`fetchedPayload`. -/
def cachedState : CurrencyState :=
  (fetchExchangeRates (.success (some fetchedPayload)) initialCurrencyState).2.1

/-- A sample cost input with every field truthy. -/
def inputEx : CostInput :=
  { sum := 2, currency := "USD", category := "food", description := "pizza" }

/-- A sample current date. -/
def nowEx : DateNow :=
  { year := 2025, month := 3, day := 4, iso := "2025-03-04T10:00:00.000Z" }

/-- A sample report already denominated in USD, with a consistent total. -/
def rptEx : Report :=
  { year := 2025, month := 3,
    costs := [{ sum := some 2, currency := "USD", category := "FOOD",
                description := "pizza", day := 4 }],
    total := { currency := "USD", total := some 2 } }

theorem upgradeNeeded_costs (db : Database) :
    (upgradeNeeded db).costs = db.costs := by
  unfold upgradeNeeded
  split <;> rfl

theorem costs_afterOpen (v : Nat) (db : Database) :
    (if db.version < v then upgradeNeeded { db with version := v }
     else db).costs = db.costs := by
  split
  · exact upgradeNeeded_costs _
  · rfl

theorem idb_openCostsDB_eq : @idb_openCostsDB = @openCostsDB := rfl

theorem openCostsDB_ok (env : HostEnv) (n : String) (v : Nat) (db : Database)
    (h : env.openFails = false) :
    openCostsDB env n v db =
      .ok (if db.version < v then upgradeNeeded { db with version := v }
           else db) := by
  unfold openCostsDB
  rw [h]
  simp only [Bool.false_eq_true, if_false]
  split <;> rfl

theorem jsOr_some_zero (q : ℚ) : jsOr (some q) 0 = q := by
  unfold jsOr
  split <;> simp_all

theorem openCostsDB_ok_spec (env : HostEnv) (n : String) (v : Nat)
    (db : Database) (h : env.openFails = false) :
    ∃ db1, openCostsDB env n v db = .ok db1 ∧ db1.costs = db.costs := by
  rw [openCostsDB_ok env n v db h]
  exact ⟨_, rfl, costs_afterOpen v db⟩

/-- C1: for every year `y`, month `m` and target currency `c`, the vanilla
`idb.getReport(y, m, c)` resolves (when the host requests succeed) to a
report whose costs list is exactly the stored records with `year = y` and
`month = m`, each reduced to its sum, currency, category, description and
day, and whose top-level year and month equal `y` and `m`. -/
theorem C1_getReport_contents (env : HostEnv) (y m : Int) (c : String)
    (db : Database) (ho : env.openFails = false)
    (hg : env.getAllFails = false) :
    ∃ r, (idb_getReport env y m c db).1 = .ok r ∧ r.year = y ∧ r.month = m ∧
      r.costs = (matchingCosts y m db.costs).map (fun rec =>
        ({ sum := some rec.sum, currency := c, category := rec.category,
           description := rec.description, day := rec.day } : ReportCost)) := by
  unfold idb_getReport
  rw [idb_openCostsDB_eq, openCostsDB_ok env _ _ db ho]
  simp only [hg, Bool.false_eq_true, if_false]
  exact ⟨_, rfl, rfl, rfl, by rw [costs_afterOpen]⟩

/-- Witness for C1 at a concrete environment, database and arguments. -/
theorem C1_getReport_contents_witness :
    ∃ r, (idb_getReport envOk 2025 3 "ILS" dbEx).1 = .ok r ∧
      r.year = 2025 ∧ r.month = 3 ∧
      r.costs = (matchingCosts 2025 3 dbEx.costs).map (fun rec =>
        ({ sum := some rec.sum, currency := "ILS", category := rec.category,
           description := rec.description, day := rec.day } : ReportCost)) :=
  C1_getReport_contents envOk 2025 3 "ILS" dbEx rfl rfl

/-- C7: both `getReport` implementations are pure queries: whatever the
host outcomes, the stored cost records after the call equal those
before. -/
theorem C7_getReport_frame (env : HostEnv) (outcome : FetchOutcome)
    (y m : Int) (c : String) (db : Database) (st : CurrencyState) :
    (idb_getReport env y m c db).2.costs = db.costs ∧
    (getReport env outcome y m c db st).2.1.costs = db.costs := by
  by_cases ho : env.openFails = true
  · simp [idb_getReport, getReport, idb_openCostsDB, openCostsDB, ho]
  · have ho' : env.openFails = false := by simpa using ho
    unfold idb_getReport getReport
    rw [idb_openCostsDB_eq, openCostsDB_ok env _ _ db ho']
    by_cases hg : env.getAllFails = true
    · simp [hg, apply_ite Database.costs, upgradeNeeded_costs]
    · have hg' : env.getAllFails = false := by simpa using hg
      simp [hg', apply_ite Database.costs, upgradeNeeded_costs]

/-- C10: `addCost` (in both libraries) validates by truthiness: whenever
the sum is `0` or any of the string fields is empty, it rejects with
`Missing required cost properties` and stores nothing. -/
theorem C10_validation (env : HostEnv) (now : DateNow) (cost : CostInput)
    (db : Database)
    (h : cost.sum = 0 ∨ cost.currency = "" ∨ cost.category = "" ∨
      cost.description = "") :
    addCost env now cost db = (.error "Missing required cost properties", db) ∧
    idb_addCost env now cost db =
      (.error "Missing required cost properties", db) := by
  have hm : missingRequired cost = true := by
    unfold missingRequired
    rcases h with h | h | h | h <;> simp [h]
  constructor
  · simp [addCost, hm]
  · simp [idb_addCost, hm]

/-- Witness for C10: a cost whose sum is `0` is rejected and not stored. -/
theorem C10_validation_witness :
    addCost envOk nowEx
        { sum := 0, currency := "USD", category := "food",
          description := "pizza" } dbEx =
      (.error "Missing required cost properties", dbEx) ∧
    idb_addCost envOk nowEx
        { sum := 0, currency := "USD", category := "food",
          description := "pizza" } dbEx =
      (.error "Missing required cost properties", dbEx) :=
  C10_validation envOk nowEx _ dbEx (Or.inl rfl)

/-- C2: for every year, month and target currency, the ES-module
`getReport` (when the host requests succeed) resolves to a
currency-normalized, aggregated report: each matching stored record
appears with its sum converted into the target currency and its currency
field set to the target currency, and the total is the sum of the
converted cost sums, labeled with the target currency. -/
theorem C2_getReport_normalized (env : HostEnv) (outcome : FetchOutcome)
    (y m : Int) (c : String) (db : Database) (st : CurrencyState)
    (ho : env.openFails = false) (hg : env.getAllFails = false) :
    ∃ r, (getReport env outcome y m c db st).1 = .ok r ∧
      r.costs = (matchingCosts y m db.costs).map
        (convertedCostOf (fetchExchangeRates outcome st).1 c) ∧
      r.total.currency = c ∧
      r.total.total = sumN (r.costs.map (fun cost => cost.sum)) := by
  obtain ⟨db1, h1, hc1⟩ := openCostsDB_ok_spec env "costsdb" 1 db ho
  unfold getReport
  rw [h1]
  simp only [hg, Bool.false_eq_true, if_false]
  unfold convertCurrency
  refine ⟨_, rfl, ?_, rfl, rfl⟩
  dsimp only
  rw [hc1, List.map_map]
  apply List.map_congr_left
  intro rec _
  simp [convertedCostOf, Function.comp, jsOr_some_zero]

/-- Witness for C2 at a concrete environment, database and arguments. -/
theorem C2_getReport_normalized_witness :
    ∃ r, (getReport envOk .failure 2025 3 "ILS" dbEx
        initialCurrencyState).1 = .ok r ∧
      r.costs = (matchingCosts 2025 3 dbEx.costs).map
        (convertedCostOf
          (fetchExchangeRates .failure initialCurrencyState).1 "ILS") ∧
      r.total.currency = "ILS" ∧
      r.total.total = sumN (r.costs.map (fun cost => cost.sum)) :=
  C2_getReport_normalized envOk .failure 2025 3 "ILS" dbEx
    initialCurrencyState rfl rfl

/-- C3: insert/query round-trip: when `addCost` succeeds during year `y`
and month `m`, a subsequent successful `getReport(y, m, c)` lists all the
previously stored records for `(y, m)` followed by the new record, whose
description is the input description, whose category is the upper-cased
input category and whose sum is the input sum converted into `c`. -/
theorem C3_roundtrip (env env2 : HostEnv) (outcome : FetchOutcome)
    (st : CurrencyState) (now : DateNow) (cost : CostInput) (db : Database)
    (c : String)
    (hv : missingRequired cost = false)
    (ho : env.openFails = false) (ha : env.addFails = false)
    (ho2 : env2.openFails = false) (hg2 : env2.getAllFails = false) :
    ∃ added db', addCost env now cost db = (.ok added, db') ∧
    ∃ r, (getReport env2 outcome now.year now.month c db' st).1 = .ok r ∧
      r.costs = (matchingCosts now.year now.month db.costs).map
          (convertedCostOf (fetchExchangeRates outcome st).1 c) ++
        [{ sum := convertAmount (fetchExchangeRates outcome st).1 cost.sum
             cost.currency c,
           currency := c, category := cost.category.toUpper,
           description := cost.description, day := now.day }] := by
  obtain ⟨db1, h1, hc1⟩ := openCostsDB_ok_spec env "costsdb" 1 db ho
  unfold addCost
  rw [hv, h1]
  simp only [ha, Bool.false_eq_true, if_false]
  refine ⟨_, _, rfl, ?_⟩
  obtain ⟨db2, h2, hc2⟩ := openCostsDB_ok_spec env2 "costsdb" 1 _ ho2
  unfold getReport
  rw [h2]
  simp only [hg2, Bool.false_eq_true, if_false]
  unfold convertCurrency
  refine ⟨_, rfl, ?_⟩
  dsimp only
  dsimp only at hc2
  rw [hc2]
  unfold matchingCosts
  rw [List.filter_append, hc1]
  rw [List.map_map, List.map_append]
  congr 1
  · apply List.map_congr_left
    intro rec _
    simp [convertedCostOf, Function.comp, jsOr_some_zero]
  · simp [mkCostItem, Function.comp, jsOr_some_zero]

/-- Witness for C3 at a concrete input cost, date and database. -/
theorem C3_roundtrip_witness :
    ∃ added db', addCost envOk nowEx inputEx dbEx = (.ok added, db') ∧
    ∃ r, (getReport envOk .failure nowEx.year nowEx.month "GBP" db'
        initialCurrencyState).1 = .ok r ∧
      r.costs = (matchingCosts nowEx.year nowEx.month dbEx.costs).map
          (convertedCostOf
            (fetchExchangeRates .failure initialCurrencyState).1 "GBP") ++
        [{ sum := convertAmount
             (fetchExchangeRates .failure initialCurrencyState).1
             inputEx.sum inputEx.currency "GBP",
           currency := "GBP", category := inputEx.category.toUpper,
           description := inputEx.description, day := nowEx.day }] :=
  C3_roundtrip envOk envOk .failure initialCurrencyState nowEx inputEx dbEx
    "GBP" rfl rfl rfl rfl rfl

theorem es_costs_eq (rates : Rates) (c : String) (l : List CostRecord) :
    (l.map (fun cost =>
        ({ sum := some (jsOr (some cost.sum) 0), currency := cost.currency,
           category := cost.category, description := cost.description,
           day := cost.day } : ReportCost))).map
      (fun cost =>
        { cost with
          sum := convertAmount rates (jsOr cost.sum 0) cost.currency c,
          currency := c }) =
    l.map (convertedCostOf rates c) := by
  rw [List.map_map]
  apply List.map_congr_left
  intro rec _
  simp [convertedCostOf, Function.comp, jsOr_some_zero]

theorem getReport_ok_form (env : HostEnv) (outcome : FetchOutcome)
    (y m : Int) (c : String) (db : Database) (st : CurrencyState)
    (ho : env.openFails = false) (hg : env.getAllFails = false) :
    (getReport env outcome y m c db st).1 = .ok
      { year := y, month := m,
        costs := (matchingCosts y m db.costs).map
                   (convertedCostOf (fetchExchangeRates outcome st).1 c),
        total := { currency := c,
                   total := sumN (((matchingCosts y m db.costs).map
                     (convertedCostOf
                       (fetchExchangeRates outcome st).1 c)).map
                     (fun cost => cost.sum)) } } := by
  obtain ⟨db1, h1, hc1⟩ := openCostsDB_ok_spec env "costsdb" 1 db ho
  unfold getReport
  rw [h1]
  simp only [hg, Bool.false_eq_true, if_false]
  unfold convertCurrency
  dsimp only
  rw [hc1, es_costs_eq]

theorem idb_getReport_ok_form (env : HostEnv) (y m : Int) (c : String)
    (db : Database) (ho : env.openFails = false)
    (hg : env.getAllFails = false) :
    (idb_getReport env y m c db).1 = .ok
      { year := y, month := m,
        costs := (matchingCosts y m db.costs).map (vanProjOf c),
        total := { currency := c,
                   total := sumN (((matchingCosts y m db.costs).map
                     (vanProjOf c)).map (fun cost => cost.sum)) } } := by
  obtain ⟨db1, h1, hc1⟩ := openCostsDB_ok_spec env "costsdb" 1 db ho
  unfold idb_getReport
  rw [idb_openCostsDB_eq, h1]
  simp only [hg, Bool.false_eq_true, if_false]
  rw [hc1]
  simp [vanProjOf, Function.comp_def]

/-- C4: each storage operation either resolves, or rejects with one of the
four fixed messages while leaving the stored cost records unchanged;
there is no other failure path. -/
theorem C4_error_channels (env : HostEnv) (outcome : FetchOutcome)
    (now : DateNow) (cost : CostInput) (db : Database) (y m : Int)
    (c : String) (st : CurrencyState) :
    (isOkB (addCost env now cost db).1 = true ∨
      (∃ e, (addCost env now cost db).1 = .error e ∧ e ∈ errMsgs ∧
        (addCost env now cost db).2.costs = db.costs)) ∧
    (isOkB (getReport env outcome y m c db st).1 = true ∨
      (∃ e, (getReport env outcome y m c db st).1 = .error e ∧ e ∈ errMsgs ∧
        (getReport env outcome y m c db st).2.1.costs = db.costs)) ∧
    (isOkB (openCostsDB env "costsdb" 1 db) = true ∨
      (∃ e, openCostsDB env "costsdb" 1 db = .error e ∧ e ∈ errMsgs)) := by
  by_cases ho : env.openFails = true
  · cases hm : missingRequired cost <;>
      simp [addCost, getReport, openCostsDB, errMsgs, isOkB, ho, hm]
  · have ho' : env.openFails = false := by simpa using ho
    obtain ⟨db1, h1, hc1⟩ := openCostsDB_ok_spec env "costsdb" 1 db ho'
    refine ⟨?_, ?_, Or.inl (by rw [h1]; rfl)⟩
    · cases hm : missingRequired cost
      · by_cases hadd : env.addFails = true
        · refine Or.inr ⟨"Failed to add cost item", ?_, by simp [errMsgs], ?_⟩ <;>
            simp [addCost, hm, h1, hadd, hc1]
        · have ha' : env.addFails = false := by simpa using hadd
          refine Or.inl ?_
          simp [addCost, hm, h1, ha', isOkB]
      · refine Or.inr ⟨"Missing required cost properties",
          by simp [addCost, hm], by simp [errMsgs], by simp [addCost, hm]⟩
    · by_cases hg : env.getAllFails = true
      · refine Or.inr ⟨"Failed to get report", ?_, by simp [errMsgs], ?_⟩ <;>
          simp [getReport, h1, hg, hc1]
      · have hg' : env.getAllFails = false := by simpa using hg
        refine Or.inl ?_
        simp [getReport, h1, hg', isOkB]

/-- C5 counterexample: after one successful fetch has stored rates that
differ from the defaults, a subsequent failing fetch returns exactly
those previously stored rates: the module caches rates and substitutes
them when the fetch fails, contrary to the claim. -/
theorem C5_cex :
    (fetchExchangeRates .failure cachedState).1 = cachedState.exchangeRates ∧
    cachedState.exchangeRates = extractRates fetchedPayload ∧
    cachedState.exchangeRates ≠ defaultRates := by
  refine ⟨rfl, rfl, ?_⟩
  simp [cachedState, fetchExchangeRates, initialCurrencyState, extractRates,
    fetchedPayload, defaultRates, jsOr]
  norm_num

/-- C5 amended: each call issues exactly one request to the configured
URL with no retry; on a usable response it stores the extracted rates in
the module-level cache and returns them; on a failed fetch, non-ok
response or unusable body it returns the previously cached rates (those
of the last successful fetch, initially the built-in defaults) instead
of failing. -/
theorem C5_fetch_behavior (st : CurrencyState) (p : RatesPayload)
    (o : FetchOutcome) :
    (fetchExchangeRates o st).2.2 = [st.exchangeUrl] ∧
    (fetchExchangeRates .failure st).1 = st.exchangeRates ∧
    (fetchExchangeRates .failure st).2.1 = st ∧
    (fetchExchangeRates (.success none) st).1 = st.exchangeRates ∧
    (fetchExchangeRates (.success (some p)) st).1 = extractRates p ∧
    (fetchExchangeRates (.success (some p)) st).2.1.exchangeRates =
      extractRates p := by
  refine ⟨?_, rfl, rfl, rfl, rfl, rfl⟩
  cases o with
  | failure => rfl
  | success q => cases q <;> rfl

/-- C6 counterexample: the schema upgrade equips the `costs` store with
four secondary indexes, not one. -/
theorem C6_cex :
    (upgradeNeeded emptyDatabase).objectStores = [costsStoreSchema] ∧
    costsStoreSchema.indexes.length = 4 ∧
    ¬ costsStoreSchema.indexes.length = 1 := by
  refine ⟨rfl, rfl, ?_⟩
  decide

/-- C6 amended: the upgrade creates the `costs` store keyed by an
auto-incremented `id` with four secondary indexes (`year`, `month`,
`yearMonth`, `category`), and running the upgrade when the store already
exists changes nothing. -/
theorem C6_upgrade (db : Database)
    (h : db.objectStores.any (fun s => s.name == "costs") = true) :
    upgradeNeeded db = db ∧
    (upgradeNeeded emptyDatabase).objectStores = [costsStoreSchema] ∧
    costsStoreSchema.keyPath = "id" ∧
    costsStoreSchema.autoIncrement = true ∧
    costsStoreSchema.indexes.map (fun i => i.name) =
      ["year", "month", "yearMonth", "category"] := by
  refine ⟨?_, rfl, rfl, rfl, rfl⟩
  simp [upgradeNeeded, h]

/-- Witness for C6 (amended) at a database that already has the store. -/
theorem C6_upgrade_witness :
    upgradeNeeded dbWithStore = dbWithStore ∧
    (upgradeNeeded emptyDatabase).objectStores = [costsStoreSchema] ∧
    costsStoreSchema.keyPath = "id" ∧
    costsStoreSchema.autoIncrement = true ∧
    costsStoreSchema.indexes.map (fun i => i.name) =
      ["year", "month", "yearMonth", "category"] :=
  C6_upgrade dbWithStore rfl

/-- C8 counterexample: on a store holding one 1-USD record the two
libraries disagree for an ILS report: the vanilla library relabels the
unconverted sum while the ES module converts it, so the resolved reports
differ. -/
theorem C8_cex :
    (idb_getReport envOk 2025 3 "ILS" dbEx).1 ≠
      (getReport envOk .failure 2025 3 "ILS" dbEx initialCurrencyState).1 := by
  rw [idb_getReport_ok_form envOk 2025 3 "ILS" dbEx rfl rfl,
    getReport_ok_form envOk .failure 2025 3 "ILS" dbEx
      initialCurrencyState rfl rfl]
  intro heq
  have h2 := Except.ok.inj heq
  have h3 := congrArg (fun r => r.total.total) h2
  simp [dbEx, recEx, matchingCosts, vanProjOf, convertedCostOf, sumN, addN,
    convertAmount, fetchExchangeRates, initialCurrencyState, defaultRates,
    jsOr, List.lookup] at h3
  norm_num at h3

/-- C8 amended: the two libraries' open/upgrade and addCost operations
coincide exactly; their getReport operations resolve to the same result
on any erroring host outcome, and also whenever every matching stored
record is already denominated in the requested currency; in general they
differ, as the ES module additionally currency-converts each sum while
the vanilla library only relabels. -/
theorem C8_library_equiv (env : HostEnv) (now : DateNow) (cost : CostInput)
    (db : Database) (y m : Int) (c : String) (st : CurrencyState)
    (outcome : FetchOutcome) (n : String) (v : Nat)
    (h : env.openFails = true ∨ env.getAllFails = true ∨
      ∀ rec ∈ matchingCosts y m db.costs, rec.currency = c) :
    idb_openCostsDB env n v db = openCostsDB env n v db ∧
    idb_addCost env now cost db = addCost env now cost db ∧
    (idb_getReport env y m c db).1 = (getReport env outcome y m c db st).1 := by
  refine ⟨rfl, rfl, ?_⟩
  by_cases ho : env.openFails = true
  · simp [idb_getReport, getReport, idb_openCostsDB, openCostsDB, ho]
  · have ho' : env.openFails = false := by simpa using ho
    by_cases hg : env.getAllFails = true
    · obtain ⟨db1, h1, hc1⟩ := openCostsDB_ok_spec env "costsdb" 1 db ho'
      unfold idb_getReport getReport
      rw [idb_openCostsDB_eq, h1]
      simp [hg]
    · have hg' : env.getAllFails = false := by simpa using hg
      have hcur : ∀ rec ∈ matchingCosts y m db.costs, rec.currency = c := by
        rcases h with h | h | h
        · exact absurd h ho
        · exact absurd h hg
        · exact h
      rw [idb_getReport_ok_form env y m c db ho' hg',
          getReport_ok_form env outcome y m c db st ho' hg']
      have hceq : (matchingCosts y m db.costs).map (vanProjOf c) =
          (matchingCosts y m db.costs).map
            (convertedCostOf (fetchExchangeRates outcome st).1 c) := by
        apply List.map_congr_left
        intro rec hrec
        have hc := hcur rec hrec
        simp [vanProjOf, convertedCostOf, convertAmount, hc]
      rw [hceq]

/-- Witness for C8 (amended) at a store whose matching record is already
in the requested currency. -/
theorem C8_library_equiv_witness :
    idb_openCostsDB envOk "costsdb" 1 dbEx = openCostsDB envOk "costsdb" 1 dbEx ∧
    idb_addCost envOk nowEx inputEx dbEx = addCost envOk nowEx inputEx dbEx ∧
    (idb_getReport envOk 2025 3 "USD" dbEx).1 =
      (getReport envOk .failure 2025 3 "USD" dbEx initialCurrencyState).1 :=
  C8_library_equiv envOk nowEx inputEx dbEx 2025 3 "USD"
    initialCurrencyState .failure "costsdb" 1
    (Or.inr (Or.inr (by decide)))

/-- C9: converting an amount into its own currency is the identity, and
applying convertCurrency to a report whose costs are already denominated
in the target currency (with its total the sum of its cost sums, as
getReport produces) returns the report unchanged: every cost sum and the
total are preserved. -/
theorem C9_conversion_identity (rates : Rates) (a : ℚ) (cur : String)
    (outcome : FetchOutcome) (st : CurrencyState) (report : Report)
    (c : String)
    (h1 : ∀ cost ∈ report.costs, cost.currency = c ∧ ∃ q, cost.sum = some q)
    (h2 : report.total.total = sumN (report.costs.map (fun cost => cost.sum)))
    (h3 : report.total.currency = c) :
    convertAmount rates a cur cur = some a ∧
    (convertCurrency outcome st report c).1 = report := by
  constructor
  · simp [convertAmount]
  · unfold convertCurrency
    dsimp only
    have hcosts : report.costs.map (fun cost => ({ cost with
        sum := convertAmount (fetchExchangeRates outcome st).1
          (jsOr cost.sum 0) cost.currency c,
        currency := c } : ReportCost)) = report.costs := by
      have hid : report.costs.map (fun cost => ({ cost with
          sum := convertAmount (fetchExchangeRates outcome st).1
            (jsOr cost.sum 0) cost.currency c,
          currency := c } : ReportCost)) = report.costs.map id := by
        apply List.map_congr_left
        intro cost hc
        obtain ⟨hcur, q, hq⟩ := h1 cost hc
        cases cost
        simp_all [convertAmount, jsOr_some_zero]
      simpa using hid
    rw [hcosts]
    obtain ⟨yy, mm, cc, tt⟩ := report
    obtain ⟨tc, tv⟩ := tt
    dsimp at h2 h3 ⊢
    rw [h2, h3]

/-- Witness for C9 at a concrete report already denominated in USD. -/
theorem C9_conversion_identity_witness :
    convertAmount defaultRates 5 "ILS" "ILS" = some 5 ∧
    (convertCurrency .failure initialCurrencyState rptEx "USD").1 = rptEx :=
  C9_conversion_identity defaultRates 5 "ILS" .failure initialCurrencyState
    rptEx "USD"
    (by
      intro cost hc
      simp [rptEx] at hc
      subst hc
      exact ⟨rfl, 2, rfl⟩)
    (by norm_num [rptEx, sumN, addN])
    rfl

end CostManager
